import Mathlib

/-!
Verification of the AlloCiné listing-page scraper (`scraper.py`).

The development shallowly embeds the scraper: an HTML node tree with the
BeautifulSoup-style operations the source uses (`find`, `find_all`, `.text`,
`.next_sibling`, attribute lookup, class matching), the ten per-field
extraction rules of `AlloCineScraper`, the per-page card loop
(`_parse_list_page`), the driver loop (`start_scraping_movies`), and the
CSV persistence of the accumulated dataset (`DataFrame.to_csv` with
`index=False`, `NaN` written as the empty cell, minimal quoting).

Fallible Python code (every per-field rule runs under a bare `except` that
substitutes `None`) is embedded as functions returning `Option String`,
where `none` is the explicit missing marker.
-/

/-! ## String helpers (embedding Python string operations) -/

/-- Character-list test: the first list is an initial segment of the second. -/
def leadsWith : List Char → List Char → Bool
  | [], _ => true
  | _ :: _, [] => false
  | a :: as, b :: bs => a == b && leadsWith as bs

/-- Character-list test: `pat` occurs contiguously inside the list (Python `in`). -/
def hasSub (pat : List Char) : List Char → Bool
  | [] => pat.isEmpty
  | c :: rest => leadsWith pat (c :: rest) || hasSub pat rest

/-- Python's `pat in s` substring test on strings. -/
def occursIn (pat s : String) : Bool := hasSub pat.data s.data

/-- Python's `sep.join(xs)`. -/
def joinWith (sep : String) : List String → String
  | [] => ""
  | [s] => s
  | s :: rest => s ++ sep ++ joinWith sep rest

/-- Python's `s.strip()`: drop leading and trailing whitespace. -/
def pyStrip (s : String) : String :=
  String.mk (((s.data.dropWhile Char.isWhitespace).reverse.dropWhile
    Char.isWhitespace).reverse)

/-- `s` ends with the suffix `suf`. -/
def strEnds (s suf : String) : Bool := leadsWith suf.data.reverse s.data.reverse

/-! ## HTML node model and BeautifulSoup-style operations -/

/-- A parsed markup node: either a text node (`NavigableString`) or an element
with a tag name, its (multi-valued) `class` attribute, its other attributes,
and its children in document order. -/
inductive Node where
  | text : String → Node
  | elem : String → List String → List (String × String) → List Node → Node

/-- Tag name of an element node. -/
def Node.tagName : Node → Option String
  | .text _ => none
  | .elem t _ _ _ => some t

/-- The `class` attribute tokens of a node (empty for text nodes). -/
def Node.classes : Node → List String
  | .text _ => []
  | .elem _ cs _ _ => cs

/-- Attribute lookup, `tag["key"]`; `none` embeds the `KeyError` raised by
Python on a missing attribute. -/
def Node.attrVal (n : Node) (key : String) : Option String :=
  match n with
  | .text _ => none
  | .elem _ _ attrs _ => (attrs.find? (fun p => p.1 == key)).map (fun p => p.2)

mutual

/-- All descendants of a node, in document (pre-)order; a `find`/`find_all`
call searches exactly this list. -/
def subNodes : Node → List Node
  | .text _ => []
  | .elem _ _ _ cs => subList cs

/-- Descendant enumeration of a sibling list: each node followed by its own
descendants, then the later siblings. -/
def subList : List Node → List Node
  | [] => []
  | c :: cs => c :: (subNodes c ++ subList cs)

end

mutual

/-- BeautifulSoup's `.text`: concatenation of all descendant text. -/
def nodeText : Node → String
  | .text s => s
  | .elem _ _ _ cs => listText cs

/-- Concatenated text of a sibling list. -/
def listText : List Node → String
  | [] => ""
  | c :: cs => nodeText c ++ listText cs

end

mutual

/-- `found.next_sibling` for `found` the first descendant (document order)
satisfying `p`: `some sib?` where `sib?` is the next sibling of that node
(`none` inside when it is the last child), or `none` when nothing matches. -/
def sibOf (p : Node → Bool) : Node → Option (Option Node)
  | .text _ => none
  | .elem _ _ _ cs => sibIn p cs

/-- Helper of `sibOf` on a sibling list. -/
def sibIn (p : Node → Bool) : List Node → Option (Option Node)
  | [] => none
  | c :: cs =>
    if p c then some cs.head?
    else
      match sibOf p c with
      | some r => some r
      | none => sibIn p cs

end

/-- `soup.find(...)`: first descendant matching, in document order. -/
def findNode (p : Node → Bool) (n : Node) : Option Node := (subNodes n).find? p

/-- `soup.find_all(...)`: all matching descendants, in document order. -/
def findAll (p : Node → Bool) (n : Node) : List Node := (subNodes n).filter p

/-- The node is an element with the given tag name. -/
def isTag (t : String) (n : Node) : Bool := n.tagName == some t

/-- The node's tag name is one of the given names (`find_all(["a", "span"])`). -/
def isTagIn (ts : List String) (n : Node) : Bool :=
  match n.tagName with
  | some t => ts.contains t
  | none => false

/-- BeautifulSoup string matching against the multi-valued `class` attribute:
the string equals one of the class tokens, or equals the full space-joined
class string (how `{"class": "a b c"}` selectors match). -/
def clsHas (s : String) (n : Node) : Bool :=
  n.classes.contains s || joinWith " " n.classes == s

/-- BeautifulSoup `class_=re.compile(r".*suf$")` matching: some class token
ends with the suffix. -/
def clsEnds (suf : String) (n : Node) : Bool := n.classes.any (fun c => strEnds c suf)

/-! ## The ten field-extraction rules of `AlloCineScraper` -/

/-- `find_all("li", class_="mdl")` card marker. -/
def cardP (n : Node) : Bool := isTag "li" n && clsHas "mdl" n

/-- `find("div", {"class": "content-title"})` marker. -/
def contentTitleP (n : Node) : Bool := isTag "div" n && clsHas "content-title" n

/-- `find("span", {"class": "date"})` marker. -/
def dateSpanP (n : Node) : Bool := isTag "span" n && clsHas "date" n

/-- `find("span", {"class": "spacer"})` marker. -/
def spacerSpanP (n : Node) : Bool := isTag "span" n && clsHas "spacer" n

/-- `find("div", {"class": "meta-body-item meta-body-info"})` marker. -/
def metaInfoP (n : Node) : Bool :=
  isTag "div" n && clsHas "meta-body-item meta-body-info" n

/-- `find_all("span", class_=re.compile(r".*==$"))` genre-tag marker. -/
def genreSpanP (n : Node) : Bool := isTag "span" n && clsEnds "==" n

/-- `find("div", {"class": "meta-body-item meta-body-direction light"})` marker. -/
def directionDivP (n : Node) : Bool :=
  isTag "div" n && clsHas "meta-body-item meta-body-direction light" n

/-- `find_all(["a", "span"], class_=re.compile(r".*blue-link$"))` marker. -/
def dirLinkP (n : Node) : Bool := isTagIn ["a", "span"] n && clsEnds "blue-link" n

/-- `find("div", {"class": "meta-body-item meta-body-actor light"})` marker. -/
def actorDivP (n : Node) : Bool :=
  isTag "div" n && clsHas "meta-body-item meta-body-actor light" n

/-- `find_all(["a", "span"])` marker used inside the actor block. -/
def aSpanP (n : Node) : Bool := isTagIn ["a", "span"] n

/-- `find_all("div", class_="rating-item")` marker. -/
def ratingItemP (n : Node) : Bool := isTag "div" n && clsHas "rating-item" n

/-- `find("span", {"class": "stareval-note"})` marker. -/
def noteSpanP (n : Node) : Bool := isTag "span" n && clsHas "stareval-note" n

/-- `find("div", {"class": "synopsis"})` marker. -/
def synopsisP (n : Node) : Bool := isTag "div" n && clsHas "synopsis" n

/-- `_get_movie_id`: href of the link in the title container with every
non-digit removed (`re.sub(r"\D", "", ...)`); `none` embeds any exception
along the chained accesses. -/
def getMovieId (m : Node) : Option String :=
  (findNode contentTitleP m).bind (fun d =>
    (findNode (isTag "a") d).bind (fun link =>
      (link.attrVal "href").map (fun h => String.mk (h.data.filter Char.isDigit))))

/-- `_get_movie_title`. -/
def getMovieTitle (m : Node) : Option String :=
  (findNode contentTitleP m).map (fun d => pyStrip (nodeText d))

/-- `_get_movie_release_date`. -/
def getMovieReleaseDate (m : Node) : Option String :=
  (findNode dateSpanP m).map (fun d => pyStrip (nodeText d))

/-- `_get_movie_duration`: the stripped text node directly following the
"spacer" span; any non-text sibling or missing sibling raises in Python
(`.strip()` on a tag / on `None`) and is embedded as `none`. -/
def getMovieDuration (m : Node) : Option String :=
  match sibOf spacerSpanP m with
  | some (some (.text s)) => some (pyStrip s)
  | _ => none

/-- `_get_movie_genres`. -/
def getMovieGenres (m : Node) : Option String :=
  (findNode metaInfoP m).map
    (fun d => joinWith ", " ((findAll genreSpanP d).map nodeText))

/-- `_get_movie_directors`. -/
def getMovieDirectors (m : Node) : Option String :=
  (findNode directionDivP m).map
    (fun d => joinWith ", " ((findAll dirLinkP d).map nodeText))

/-- `_get_movie_actors`: texts of every link-or-span in the actor block,
first entry dropped (`[1:]`), joined with `", "`. -/
def getMovieActors (m : Node) : Option String :=
  (findNode actorDivP m).map
    (fun d => joinWith ", " (((findAll aSpanP d).map nodeText).drop 1))

/-- The card's `rating-item` blocks, in document order. -/
def ratingBlocks (m : Node) : List Node := findAll ratingItemP m

/-- The nested `stareval-note` span of a rating block. -/
def noteOf (b : Node) : Option Node := findNode noteSpanP b

/-- `_get_movie_press_rating`: first rating block whose text contains
"Presse"; its note's text, or `None` when no block matches (a matching block
without a note raises in Python, embedded as `none`). -/
def getMoviePressRating (m : Node) : Option String :=
  ((ratingBlocks m).find? (fun r => occursIn "Presse" (nodeText r))).bind
    (fun r => (noteOf r).map nodeText)

/-- `_get_movie_spec_rating`: same scan for the label "Spectateurs". -/
def getMovieSpecRating (m : Node) : Option String :=
  ((ratingBlocks m).find? (fun r => occursIn "Spectateurs" (nodeText r))).bind
    (fun r => (noteOf r).map nodeText)

/-- `_get_movie_summary`. -/
def getMovieSummary (m : Node) : Option String :=
  (findNode synopsisP m).map (fun d => pyStrip (nodeText d))

/-- `AlloCineScraper.movie_infos`: the fixed column list. -/
def movieInfos : List String :=
  ["id", "title", "release_date", "duration", "genres", "directors", "actors",
   "press_rating", "spec_rating", "summary"]

/-- `getattr(self, "_get_movie_" + info)(movie)` under the per-field
`try/except`: dispatch by field name; an unknown name raises and is embedded
as `none`. -/
def getMovieInfo : String → Node → Option String
  | "id", m => getMovieId m
  | "title", m => getMovieTitle m
  | "release_date", m => getMovieReleaseDate m
  | "duration", m => getMovieDuration m
  | "genres", m => getMovieGenres m
  | "directors", m => getMovieDirectors m
  | "actors", m => getMovieActors m
  | "press_rating", m => getMoviePressRating m
  | "spec_rating", m => getMovieSpecRating m
  | "summary", m => getMovieSummary m
  | _, _ => none

/-- One dataset row: one `Option String` cell per column, `none` being the
missing marker (pandas `NaN`). -/
abbrev Row := List (Option String)

/-- The `movie_datas` list built for one card: every field rule applied
independently, in the fixed field order. -/
def extractCard (m : Node) : Row := movieInfos.map (fun i => getMovieInfo i m)

/-- `parser.find_all("li", class_="mdl")`: the movie cards of a page. -/
def findCards (doc : Node) : List Node := findAll cardP doc

/-- The records extracted from one page's markup: one row per detected card. -/
def extractPage (doc : Node) : List Row := (findCards doc).map extractCard

/-! ## CSV persistence (`DataFrame.to_csv(..., index=False)`) -/

/-- Minimal quoting rule: a cell is quoted when it contains the delimiter,
the quote character, or a line terminator. -/
def needsQuote (l : List Char) : Bool :=
  l.any (fun c => c == ',' || c == '"' || c == '\n' || c == '\r')

/-- Double every quote character (CSV escaping inside a quoted cell). -/
def escQ : List Char → List Char
  | [] => []
  | c :: r => if c == '"' then '"' :: '"' :: escQ r else c :: escQ r

/-- Serialize one cell: missing values print as the empty cell; present
values are quoted exactly when `needsQuote` holds. -/
def cellChars : Option String → List Char
  | none => []
  | some s => if needsQuote s.data then '"' :: (escQ s.data ++ ['"']) else s.data

/-- Join serialized cells with the `,` delimiter. -/
def joinChars : List (List Char) → List Char
  | [] => []
  | [c] => c
  | c :: cs => c ++ ',' :: joinChars cs

/-- One serialized data line. -/
def rowChars (r : Row) : List Char := joinChars (r.map cellChars)

/-- The header line: the column names in the fixed order, comma-joined. -/
def headerChars : List Char := (joinWith "," movieInfos).data

/-- All data lines, each terminated by a newline. -/
def rowsChars : List Row → List Char
  | [] => []
  | r :: rs => rowChars r ++ '\n' :: rowsChars rs

/-- The whole file: header line, then one line per row. -/
def csvChars (ds : List Row) : List Char := headerChars ++ '\n' :: rowsChars ds

/-- `dataset.to_csv("files/" + name, index=False)`: the full file content
written for the accumulated dataset. -/
def toCsv (ds : List Row) : String := String.mk (csvChars ds)

/-! ## Reading the file back (round-trip direction) -/

/-- Quote-aware split on a delimiter: used to cut the file into lines and a
line into cells, leaving quote characters in place. -/
def splitQ (d : Char) : List Char → Bool → List Char → List (List Char)
  | [], _, acc => [acc.reverse]
  | c :: r, q, acc =>
    if c == '"' then splitQ d r (!q) (c :: acc)
    else if c == d && !q then acc.reverse :: splitQ d r false []
    else splitQ d r q (c :: acc)

mutual

/-- Undo quote doubling up to the closing quote. -/
def unescQ : List Char → List Char
  | [] => []
  | c :: r => if c == '"' then unescQAfterQ r else c :: unescQ r

/-- State after reading a quote character: a second quote is an escaped
quote, anything else closes the cell. -/
def unescQAfterQ : List Char → List Char
  | [] => []
  | c2 :: r2 => if c2 == '"' then '"' :: unescQ r2 else []

end

/-- Interpret one raw cell: the empty cell is the missing marker; a quoted
cell is unescaped; anything else is taken verbatim. -/
def cellOf (l : List Char) : Option String :=
  match l with
  | [] => none
  | c :: r => if c == '"' then some (String.mk (unescQ r)) else some (String.mk (c :: r))

/-- Modelled from the spec: re-reading the persisted delimited file back into
records ("persisting an N-record dataset and re-reading it back in"); the
repository itself never reads the file, so the reader follows the output
format's conventions: drop the header line, one record per line, empty cell
read back as the missing marker. -/
def readCsv (s : String) : List Row :=
  (((splitQ '\n' s.data false []).drop 1).dropLast).map
    (fun line => (splitQ ',' line false []).map cellOf)

/-! ## The driver loop and the dataset sink -/

/-- The scraper's observable state: the accumulated in-memory dataset and the
content last written to the output file. -/
structure ScrapeState where
  dataset : List Row
  file : Option String

/-- `_parse_list_page`: extract one row per card, append all of them to the
dataset, then rewrite the whole file. -/
def parseListPage (doc : Node) (st : ScrapeState) : ScrapeState :=
  let ds := st.dataset ++ extractPage doc
  { dataset := ds, file := some (toCsv ds) }

/-- Processing a sequence of fetched pages in order. -/
def scrapePages (docs : List Node) (st : ScrapeState) : ScrapeState :=
  docs.foldl (fun s d => parseListPage d s) st

/-- `for number in range(1, self.number_of_pages)`: the page indices the
driver loop iterates over. -/
def pagesToFetch (n : Nat) : List Nat := List.range' 1 (n - 1)

/-- `start_scraping_movies`: fetch and process each page of the loop range. -/
def startScrapingMovies (n : Nat) (fetch : Nat → Node) (st : ScrapeState) :
    ScrapeState :=
  scrapePages ((pagesToFetch n).map fetch) st

/-! ## Concrete markup used by the witnesses -/

/-- Title link of the fully populated card. -/
def titleLinkFull : Node :=
  .elem "a" [] [("href", "/film/fichefilm_gen_cfilm=123456.html")]
    [.text "Example Movie"]

/-- Title container of the fully populated card. -/
def titleDivFull : Node := .elem "div" ["content-title"] [] [titleLinkFull]

/-- Meta-info block: date, spacer + duration text, two genre tags. -/
def metaInfoDivFull : Node :=
  .elem "div" ["meta-body-item", "meta-body-info"] []
    [.elem "span" ["date"] [] [.text " 12 mars 2025 "],
     .elem "span" ["spacer"] [] [.text "|"],
     .text " 1h 45min ",
     .elem "span" ["dGVzdA=="] [] [.text "Drama"],
     .elem "span" ["Z2Vucg=="] [] [.text "Comedy"]]

/-- Meta-info block with the date span removed (one missing sub-fragment). -/
def metaInfoDivNoDate : Node :=
  .elem "div" ["meta-body-item", "meta-body-info"] []
    [.elem "span" ["spacer"] [] [.text "|"],
     .text " 1h 45min ",
     .elem "span" ["dGVzdA=="] [] [.text "Drama"],
     .elem "span" ["Z2Vucg=="] [] [.text "Comedy"]]

/-- Direction block. -/
def directionDivFull : Node :=
  .elem "div" ["meta-body-item", "meta-body-direction", "light"] []
    [.elem "span" ["light"] [] [.text "De"],
     .elem "a" ["blue-link"] [] [.text "Jane Doe"]]

/-- Actor block: role label first, then three names. -/
def actorDivFull : Node :=
  .elem "div" ["meta-body-item", "meta-body-actor", "light"] []
    [.elem "span" ["light"] [] [.text "Avec"],
     .elem "a" ["blue-link"] [] [.text "Alice"],
     .elem "a" ["blue-link"] [] [.text "Bob"],
     .elem "a" ["blue-link"] [] [.text "Carol"]]

/-- Press rating block with note "3.5". -/
def ratingPresseFull : Node :=
  .elem "div" ["rating-item"] []
    [.text "Presse ", .elem "span" ["stareval-note"] [] [.text "3.5"]]

/-- Audience rating block with note "4.0". -/
def ratingSpecFull : Node :=
  .elem "div" ["rating-item"] []
    [.text "Spectateurs ", .elem "span" ["stareval-note"] [] [.text "4.0"]]

/-- Synopsis block. -/
def synopsisDivFull : Node := .elem "div" ["synopsis"] [] [.text " A great movie. "]

/-- A fully populated movie card. -/
def cardFull : Node :=
  .elem "li" ["mdl"] []
    [titleDivFull, metaInfoDivFull, directionDivFull, actorDivFull,
     ratingPresseFull, ratingSpecFull, synopsisDivFull]

/-- The same card with exactly the release-date sub-fragment removed. -/
def cardNoDate : Node :=
  .elem "li" ["mdl"] []
    [titleDivFull, metaInfoDivNoDate, directionDivFull, actorDivFull,
     ratingPresseFull, ratingSpecFull, synopsisDivFull]

/-- A minimal card: only a title container with a link. -/
def cardBare : Node :=
  .elem "li" ["mdl"] []
    [.elem "div" ["content-title"] []
      [.elem "a" [] [("href", "/film/789.html")] [.text "Other Movie"]]]

/-- Actor block that is present but holds a single link-or-span element. -/
def actorDivOne : Node :=
  .elem "div" ["meta-body-item", "meta-body-actor", "light"] []
    [.elem "span" ["light"] [] [.text "Avec"]]

/-- Meta-info block that is present but has no genre-tag span. -/
def metaInfoDivEmpty : Node :=
  .elem "div" ["meta-body-item", "meta-body-info"] []
    [.elem "span" ["date"] [] [.text "date"]]

/-- Card whose actor and meta-info blocks are present but empty of targets. -/
def cardOneActor : Node :=
  .elem "li" ["mdl"] [] [metaInfoDivEmpty, actorDivOne]

/-- Title container whose href carries a second digit run before the id. -/
def titleDivWeird : Node :=
  .elem "div" ["content-title"] []
    [.elem "a" [] [("href", "/sem-2024/film-123.html")] [.text "Weird"]]

/-- Card whose link href contains digits besides the movie id. -/
def cardWeird : Node := .elem "li" ["mdl"] [] [titleDivWeird]

/-- A listing page holding two cards. -/
def pageDocFull : Node :=
  .elem "html" [] [] [.elem "ul" [] [] [cardFull, cardBare]]

/-- The empty starting state (dataset created empty, nothing written yet). -/
def stEmpty : ScrapeState := { dataset := [], file := none }

/-- Dataset used for the round-trip witness: the two records of the
two-card page (commas, missing markers, quotes all exercised). -/
def dsGood : List Row :=
  extractPage pageDocFull ++
    [[some "7", some "He said \"hi\"", some "a,b", none, some "x", none,
      some "y", none, none, some "z"]]

/-- Dataset with one present-but-empty field (the actors cell). -/
def dsBad : List Row :=
  [[some "7", some "T", none, none, none, none, some "", none, none, none]]

/-- The same dataset with that cell missing instead of empty. -/
def dsBad2 : List Row :=
  [[some "7", some "T", none, none, none, none, none, none, none, none]]

/-! ## Helper lemmas -/

theorem splitQ_nil (d : Char) (q : Bool) (acc : List Char) :
    splitQ d [] q acc = [acc.reverse] := rfl

theorem splitQ_cons (d c : Char) (r : List Char) (q : Bool) (acc : List Char) :
    splitQ d (c :: r) q acc =
      if c == '"' then splitQ d r (!q) (c :: acc)
      else if c == d && !q then acc.reverse :: splitQ d r false []
      else splitQ d r q (c :: acc) := rfl

theorem escQ_cons (c : Char) (r : List Char) :
    escQ (c :: r) = if c == '"' then '"' :: '"' :: escQ r else c :: escQ r := rfl

theorem unescQ_cons (c : Char) (r : List Char) :
    unescQ (c :: r) = if c == '"' then unescQAfterQ r else c :: unescQ r := rfl

theorem unescQAfterQ_cons (c2 : Char) (r2 : List Char) :
    unescQAfterQ (c2 :: r2) = if c2 == '"' then '"' :: unescQ r2 else [] := rfl

theorem joinChars_one (c : List Char) : joinChars [c] = c := rfl

theorem joinChars_two (c c2 : List Char) (cs : List (List Char)) :
    joinChars (c :: c2 :: cs) = c ++ ',' :: joinChars (c2 :: cs) := rfl

theorem cellOf_cons (c : Char) (r : List Char) :
    cellOf (c :: r) =
      if c == '"' then some (String.mk (unescQ r)) else some (String.mk (c :: r)) := rfl

/-- `find?` returns the element at the first position where the predicate
holds. -/
theorem find_first_aux {α : Type} (p : α → Bool) (l : List α) :
    ∀ (k : Nat) (hk : k < l.length),
      p (l.get ⟨k, hk⟩) = true →
      (∀ (j : Nat) (hj : j < k), p (l.get ⟨j, Nat.lt_trans hj hk⟩) = false) →
      l.find? p = some (l.get ⟨k, hk⟩) := by
  induction l with
  | nil => intro k hk _ _; exact absurd hk (Nat.not_lt_zero k)
  | cons a t ih =>
    intro k hk hp he
    cases k with
    | zero => exact List.find?_cons_of_pos t hp
    | succ k =>
      have ha : p a = false := he 0 (Nat.succ_pos k)
      rw [List.find?_cons_of_neg t (by simp [ha])]
      exact ih k (Nat.lt_of_succ_lt_succ hk) hp
        (fun j hj => he (j + 1) (Nat.succ_lt_succ hj))

/-- A chunk with no unquoted delimiter and no quote character passes through
the splitter unchanged, in the unquoted state. -/
theorem splits_clean_bare (d : Char) (l : List Char)
    (hl : ∀ c ∈ l, c ≠ d ∧ c ≠ '"') :
    ∀ (r acc : List Char),
      splitQ d (l ++ r) false acc = splitQ d r false (l.reverse ++ acc) := by
  induction l with
  | nil => intro r acc; rfl
  | cons c t ih =>
    intro r acc
    have hc := hl c (List.mem_cons_self c t)
    have ht : ∀ x ∈ t, x ≠ d ∧ x ≠ '"' := fun x hx => hl x (List.mem_cons_of_mem c hx)
    show splitQ d (c :: (t ++ r)) false acc = _
    rw [splitQ_cons, if_neg (by simp [hc.2]), if_neg (by simp [hc.1])]
    rw [ih ht r (c :: acc)]
    simp

/-- Inside a quoted cell, an escaped body followed by the closing quote
returns the splitter to the unquoted state without emitting. -/
theorem splits_clean_esc (d : Char) (l : List Char) :
    ∀ (r acc : List Char),
      splitQ d (escQ l ++ '"' :: r) true acc =
        splitQ d r false ('"' :: ((escQ l).reverse ++ acc)) := by
  induction l with
  | nil =>
    intro r acc
    show splitQ d ('"' :: r) true acc = _
    rw [splitQ_cons, if_pos (by simp)]
    simp [escQ]
  | cons c t ih =>
    intro r acc
    by_cases hc : c = '"'
    · subst hc
      rw [escQ_cons, if_pos (by simp)]
      show splitQ d ('"' :: ('"' :: (escQ t ++ '"' :: r))) true acc = _
      rw [splitQ_cons, if_pos (by simp)]
      rw [splitQ_cons, if_pos (by simp)]
      simp only [Bool.not_true, Bool.not_false]
      rw [ih r ('"' :: '"' :: acc)]
      simp
    · rw [escQ_cons, if_neg (by simp [hc])]
      show splitQ d (c :: (escQ t ++ '"' :: r)) true acc = _
      rw [splitQ_cons, if_neg (by simp [hc])]
      rw [if_neg (by simp)]
      rw [ih r (c :: acc)]
      simp

/-- Any serialized cell passes through the line/cell splitter unchanged when
split on `,` or on a newline. -/
theorem splits_clean_cell (d : Char) (hd : d = ',' ∨ d = '\n') (o : Option String) :
    ∀ (r acc : List Char),
      splitQ d (cellChars o ++ r) false acc =
        splitQ d r false ((cellChars o).reverse ++ acc) := by
  cases o with
  | none => intro r acc; rfl
  | some s =>
    intro r acc
    by_cases hq : needsQuote s.data
    · rw [cellChars, if_pos hq]
      show splitQ d ('"' :: ((escQ s.data ++ ['"']) ++ r)) false acc = _
      rw [splitQ_cons, if_pos (by simp)]
      rw [List.append_assoc, List.singleton_append]
      simp only [Bool.not_false]
      rw [splits_clean_esc d s.data r ('"' :: acc)]
      simp
    · rw [cellChars, if_neg hq]
      refine splits_clean_bare d s.data ?_ r acc
      intro c hc
      have hna : ¬(c == ',' || c == '"' || c == '\n' || c == '\r') = true := by
        intro hcon
        exact hq (List.any_eq_true.mpr ⟨c, hc, hcon⟩)
      simp only [Bool.or_eq_true, beq_iff_eq, not_or] at hna
      rcases hd with h | h <;> subst h
      · exact ⟨hna.1.1.1, hna.1.1.2⟩
      · exact ⟨hna.1.2, hna.1.1.2⟩

/-- Hitting the delimiter in the unquoted state emits the accumulated chunk. -/
theorem splitQ_emit (d : Char) (hd : d ≠ '"') (r acc : List Char) :
    splitQ d (d :: r) false acc = acc.reverse :: splitQ d r false [] := by
  rw [splitQ_cons, if_neg (by simp [hd]), if_pos (by simp)]

/-- A whole serialized row passes through the newline splitter unchanged. -/
theorem splits_clean_row (row : Row) :
    ∀ (r acc : List Char),
      splitQ '\n' (rowChars row ++ r) false acc =
        splitQ '\n' r false ((rowChars row).reverse ++ acc) := by
  rw [rowChars]
  induction row with
  | nil => intro r acc; rfl
  | cons o os ih =>
    intro r acc
    cases os with
    | nil =>
      show splitQ '\n' (joinChars [cellChars o] ++ r) false acc = _
      rw [joinChars_one]
      exact splits_clean_cell '\n' (Or.inr rfl) o r acc
    | cons o2 os2 =>
      show splitQ '\n' (joinChars (cellChars o :: cellChars o2 :: (os2.map cellChars)) ++ r)
            false acc = _
      rw [joinChars_two]
      rw [List.append_assoc]
      rw [splits_clean_cell '\n' (Or.inr rfl) o _ acc]
      show splitQ '\n' (',' :: (joinChars (cellChars o2 :: (os2.map cellChars)) ++ r))
            false _ = _
      rw [splitQ_cons, if_neg (by decide), if_neg (by decide)]
      rw [← List.map_cons cellChars o2 os2]
      rw [ih r (',' :: ((cellChars o).reverse ++ acc))]
      simp [joinChars]

/-- Splitting the serialized data lines on newlines recovers one chunk per
row plus the empty trailing chunk. -/
theorem splitQ_rowsChars (ds : List Row) :
    splitQ '\n' (rowsChars ds) false [] = ds.map rowChars ++ [[]] := by
  induction ds with
  | nil => rfl
  | cons r rs ih =>
    rw [rowsChars, splits_clean_row r ('\n' :: rowsChars rs) []]
    rw [splitQ_emit '\n' (by decide)]
    rw [ih]
    simp

/-- Splitting the whole persisted file on newlines yields the header line
followed by one line per record (plus the empty trailing chunk). -/
theorem csv_lines (ds : List Row) :
    splitQ '\n' (csvChars ds) false [] = headerChars :: ds.map rowChars ++ [[]] := by
  rw [csvChars]
  rw [splits_clean_bare '\n' headerChars (by decide) ('\n' :: rowsChars ds) []]
  rw [splitQ_emit '\n' (by decide)]
  rw [splitQ_rowsChars]
  simp

/-- Splitting a serialized row on commas recovers its serialized cells. -/
theorem row_cells_aux (os : List (Option String)) :
    ∀ (o : Option String) (acc : List Char),
      splitQ ',' (joinChars ((o :: os).map cellChars)) false acc =
        (acc.reverse ++ cellChars o) :: os.map cellChars := by
  induction os with
  | nil =>
    intro o acc
    show splitQ ',' (joinChars [cellChars o]) false acc = _
    rw [joinChars_one]
    have h := splits_clean_cell ',' (Or.inl rfl) o [] acc
    rw [List.append_nil] at h
    rw [h]
    rw [splitQ_nil]
    simp
  | cons o2 os2 ih =>
    intro o acc
    show splitQ ',' (joinChars (cellChars o :: cellChars o2 :: (os2.map cellChars)))
          false acc = _
    rw [joinChars_two]
    rw [splits_clean_cell ',' (Or.inl rfl) o _ acc]
    rw [splitQ_emit ',' (by decide)]
    rw [← List.map_cons cellChars o2 os2]
    rw [ih o2 []]
    simp

/-- Un-escaping inverts escaping (with the closing quote appended). -/
theorem unescQ_escQ (l : List Char) : unescQ (escQ l ++ ['"']) = l := by
  induction l with
  | nil => rfl
  | cons c t ih =>
    by_cases hc : c = '"'
    · subst hc
      rw [escQ_cons, if_pos (by simp)]
      show unescQ ('"' :: ('"' :: (escQ t ++ ['"']))) = _
      rw [unescQ_cons, if_pos (by simp)]
      rw [unescQAfterQ_cons, if_pos (by simp), ih]
    · rw [escQ_cons, if_neg (by simp [hc])]
      show unescQ (c :: (escQ t ++ ['"'])) = _
      rw [unescQ_cons, if_neg (by simp [hc]), ih]

/-- Reading a serialized cell back recovers the cell, for any value other
than the present-but-empty string. -/
theorem cellOf_cellChars (o : Option String) (h : o ≠ some "") :
    cellOf (cellChars o) = o := by
  cases o with
  | none => rfl
  | some s =>
    obtain ⟨l⟩ := s
    by_cases hq : needsQuote (String.mk l).data
    · rw [cellChars, if_pos hq]
      show cellOf ('"' :: (escQ (String.mk l).data ++ ['"'])) = _
      rw [cellOf_cons, if_pos (by simp)]
      rw [unescQ_escQ]
    · rw [cellChars, if_neg hq]
      cases l with
      | nil => exact absurd rfl h
      | cons c t =>
        have hc : c ≠ '"' := by
          intro hcon
          apply hq
          refine List.any_eq_true.mpr ⟨c, List.mem_cons_self c t, ?_⟩
          simp [hcon]
        show cellOf (c :: t) = _
        rw [cellOf_cons, if_neg (by simp [hc])]

/-- Reading one serialized row line back recovers the row. -/
theorem row_roundtrip (row : Row) (hne : row ≠ [])
    (hcells : ∀ o ∈ row, o ≠ some "") :
    (splitQ ',' (rowChars row) false []).map cellOf = row := by
  cases row with
  | nil => exact absurd rfl hne
  | cons o os =>
    rw [rowChars, row_cells_aux os o []]
    simp only [List.reverse_nil, List.nil_append]
    rw [List.map_cons, List.map_map]
    rw [cellOf_cellChars o (hcells o (List.mem_cons_self o os))]
    congr 1
    have hall : ∀ x ∈ os, (cellOf ∘ cellChars) x = id x := by
      intro x hx
      exact cellOf_cellChars x (hcells x (List.mem_cons_of_mem o hx))
    rw [List.map_congr_left hall, List.map_id]

/-- The dataset after processing a list of pages: the prior rows followed by
every page's extracted rows, in order. -/
theorem scrapePages_dataset (docs : List Node) (st : ScrapeState) :
    (scrapePages docs st).dataset = st.dataset ++ (docs.map extractPage).flatten := by
  induction docs generalizing st with
  | nil => simp [scrapePages]
  | cons d ds ih =>
    show (scrapePages ds (parseListPage d st)).dataset = _
    rw [ih]
    show (st.dataset ++ extractPage d) ++ (ds.map extractPage).flatten = _
    simp

/-- Every extracted row has exactly one cell per declared column. -/
theorem extractCard_length (m : Node) : (extractCard m).length = movieInfos.length := by
  simp [extractCard]

/-! ## The claims -/

/-- Claim C1 (error handling / field independence): for a card differing
from a baseline card only in that exactly one field's target sub-fragment
is removed or corrupted — formalized as: the affected field rule yields the
missing marker on the modified card while every other field rule's result is
unchanged — the extracted record equals the baseline record with exactly
that field replaced by the missing marker; and the failing card never
aborts the extraction of the other cards of the page. -/
theorem c1_field_independence (c c' : Node) (i : Fin movieInfos.length)
    (hfail : getMovieInfo (movieInfos.get i) c' = none)
    (hrest : ∀ j : Fin movieInfos.length, j ≠ i →
      getMovieInfo (movieInfos.get j) c' = getMovieInfo (movieInfos.get j) c) :
    extractCard c' = (extractCard c).set i none ∧
    ∀ pre post : List Node,
      (pre ++ c' :: post).map extractCard =
        pre.map extractCard ++ extractCard c' :: post.map extractCard := by
  constructor
  · refine List.ext_getElem (by simp [extractCard]) ?_
    intro n h1 h2
    have hn : n < movieInfos.length := by simpa [extractCard] using h1
    rw [List.getElem_set]
    show (movieInfos.map (fun s => getMovieInfo s c'))[n] = _
    rw [List.getElem_map]
    by_cases hni : (i : Nat) = n
    · rw [if_pos hni]
      subst hni
      rw [List.get_eq_getElem] at hfail
      exact hfail
    · rw [if_neg hni]
      show _ = (movieInfos.map (fun s => getMovieInfo s c))[n]
      rw [List.getElem_map]
      exact hrest ⟨n, hn⟩ (fun hcon => hni (congrArg Fin.val hcon).symm)
  · intro pre post
    simp

/-- Claim C1, witness: removing the release-date sub-fragment from the fully
populated card makes exactly the third field the missing marker. -/
theorem c1_field_independence_witness :
    getMovieInfo (movieInfos.get ⟨2, by decide⟩) cardNoDate = none ∧
    (∀ j : Fin movieInfos.length, j ≠ ⟨2, by decide⟩ →
      getMovieInfo (movieInfos.get j) cardNoDate =
        getMovieInfo (movieInfos.get j) cardFull) ∧
    extractCard cardNoDate = (extractCard cardFull).set 2 none :=
  ⟨by decide, by decide,
    (c1_field_independence cardFull cardNoDate ⟨2, by decide⟩
      (by decide) (by decide)).1⟩

/-- Claim C2 (invariants / row count): a page with K detected cards yields
exactly K records; after any number of processed pages the dataset's row
count equals the total number of detected cards; every row has exactly the
ten fixed columns (missing fields are stored as the marker, never by
dropping a column). -/
theorem c2_row_count (docs : List Node) (st : ScrapeState)
    (hst : ∀ r ∈ st.dataset, r.length = movieInfos.length) :
    movieInfos.length = 10 ∧
    (∀ d : Node, (extractPage d).length = (findCards d).length) ∧
    (scrapePages docs st).dataset.length =
      st.dataset.length + ((docs.map (fun d => (findCards d).length)).sum) ∧
    ∀ r ∈ (scrapePages docs st).dataset, r.length = movieInfos.length := by
  refine ⟨rfl, fun d => by simp [extractPage], ?_, ?_⟩
  · rw [scrapePages_dataset]
    simp only [List.length_append, List.length_flatten, List.map_map]
    exact congrArg (fun x => st.dataset.length + x)
      (congrArg List.sum
        (List.map_congr_left (fun d _ => by simp [Function.comp, extractPage])))
  · intro r hr
    rw [scrapePages_dataset] at hr
    rcases List.mem_append.mp hr with h | h
    · exact hst r h
    · obtain ⟨l, hl, hrl⟩ := List.mem_flatten.mp h
      obtain ⟨d, _, hd⟩ := List.mem_map.mp hl
      subst hd
      obtain ⟨card, _, hc⟩ := List.mem_map.mp hrl
      subst hc
      exact extractCard_length card

/-- Claim C2, witness: a page with two cards, starting from the empty
dataset. -/
theorem c2_row_count_witness :
    (∀ r ∈ stEmpty.dataset, r.length = movieInfos.length) ∧
    (scrapePages [pageDocFull] stEmpty).dataset.length =
      stEmpty.dataset.length +
        (([pageDocFull].map (fun d => (findCards d).length)).sum) ∧
    ∀ r ∈ (scrapePages [pageDocFull] stEmpty).dataset,
      r.length = movieInfos.length :=
  ⟨by decide, (c2_row_count [pageDocFull] stEmpty (by decide)).2.2.1,
    (c2_row_count [pageDocFull] stEmpty (by decide)).2.2.2⟩

/-- Claim C3 (rating extraction): scanning the card's rating blocks in
document order, the press rating comes from the first block whose text
contains "Presse" (the text of its nested star-rating-note element), and
likewise the audience rating for "Spectateurs"; when no block matches the
label, the field is the missing marker (no error). -/
theorem c3_rating_scan (m : Node) :
    (∀ (k : Nat) (hk : k < (ratingBlocks m).length),
        occursIn "Presse" (nodeText ((ratingBlocks m).get ⟨k, hk⟩)) = true →
        (∀ (j : Nat) (hj : j < k),
          occursIn "Presse"
            (nodeText ((ratingBlocks m).get ⟨j, Nat.lt_trans hj hk⟩)) = false) →
        getMoviePressRating m =
          (noteOf ((ratingBlocks m).get ⟨k, hk⟩)).map nodeText) ∧
    ((∀ b ∈ ratingBlocks m, occursIn "Presse" (nodeText b) = false) →
        getMoviePressRating m = none) ∧
    (∀ (k : Nat) (hk : k < (ratingBlocks m).length),
        occursIn "Spectateurs" (nodeText ((ratingBlocks m).get ⟨k, hk⟩)) = true →
        (∀ (j : Nat) (hj : j < k),
          occursIn "Spectateurs"
            (nodeText ((ratingBlocks m).get ⟨j, Nat.lt_trans hj hk⟩)) = false) →
        getMovieSpecRating m =
          (noteOf ((ratingBlocks m).get ⟨k, hk⟩)).map nodeText) ∧
    ((∀ b ∈ ratingBlocks m, occursIn "Spectateurs" (nodeText b) = false) →
        getMovieSpecRating m = none) := by
  refine ⟨?_, ?_, ?_, ?_⟩
  · intro k hk hp he
    have hf := find_first_aux (fun r => occursIn "Presse" (nodeText r))
      (ratingBlocks m) k hk hp he
    rw [getMoviePressRating, hf, Option.some_bind]
  · intro hall
    rw [getMoviePressRating,
      List.find?_eq_none.mpr (fun x hx => by simp [hall x hx]), Option.none_bind]
  · intro k hk hp he
    have hf := find_first_aux (fun r => occursIn "Spectateurs" (nodeText r))
      (ratingBlocks m) k hk hp he
    rw [getMovieSpecRating, hf, Option.some_bind]
  · intro hall
    rw [getMovieSpecRating,
      List.find?_eq_none.mpr (fun x hx => by simp [hall x hx]), Option.none_bind]

/-- Claim C3, witness: the fully populated card ("Presse" in the first
block giving "3.5", "Spectateurs" in the second giving "4.0") and a card
with no rating blocks (both fields missing). -/
theorem c3_rating_scan_witness :
    getMoviePressRating cardFull = some "3.5" ∧
    getMovieSpecRating cardFull = some "4.0" ∧
    getMoviePressRating cardBare = none ∧
    getMovieSpecRating cardBare = none := by
  refine ⟨?_, ?_, ?_, ?_⟩
  · exact ((c3_rating_scan cardFull).1 0 (by decide) (by decide)
      (fun j hj => absurd hj (Nat.not_lt_zero j))).trans (by decide)
  · refine ((c3_rating_scan cardFull).2.2.1 1 (by decide) (by decide) ?_).trans
      (by decide)
    intro j hj
    have hj0 : j = 0 := Nat.lt_one_iff.mp hj
    subst hj0
    show occursIn "Spectateurs"
      (nodeText ((ratingBlocks cardFull).get ⟨0, by decide⟩)) = false
    decide
  · exact (c3_rating_scan cardBare).2.1 (by decide)
  · exact (c3_rating_scan cardBare).2.2.2 (by decide)

/-- Claim C4 (actor-list exclusion): the actors field joins with ", " the
texts of the actor block's link-or-span elements with the first element
always discarded; in particular an element sequence `[Role, A, B, C]` gives
`"A, B, C"`. -/
theorem c4_actor_drop (m d : Node) (hd : findNode actorDivP m = some d) :
    getMovieActors m =
      some (joinWith ", " (((findAll aSpanP d).map nodeText).drop 1)) ∧
    ∀ r a b c : String,
      (findAll aSpanP d).map nodeText = [r, a, b, c] →
      getMovieActors m = some (a ++ ", " ++ b ++ ", " ++ c) := by
  have h1 : getMovieActors m =
      some (joinWith ", " (((findAll aSpanP d).map nodeText).drop 1)) := by
    rw [getMovieActors, hd, Option.map_some']
  refine ⟨h1, ?_⟩
  intro r a b c hlist
  rw [h1, hlist]
  show some (joinWith ", " [a, b, c]) = _
  simp [joinWith, String.append_assoc]

/-- Claim C4, witness: the baseline actor block `[Avec, Alice, Bob, Carol]`
yields `"Alice, Bob, Carol"`. -/
theorem c4_actor_drop_witness :
    (findAll aSpanP actorDivFull).map nodeText = ["Avec", "Alice", "Bob", "Carol"] ∧
    getMovieActors cardFull = some "Alice, Bob, Carol" :=
  ⟨by decide,
    ((c4_actor_drop cardFull actorDivFull rfl).2 "Avec" "Alice" "Bob" "Carol"
      (by decide)).trans (by decide)⟩

/-- Claim C5 (pagination boundary): for `number_of_pages = N ≥ 2` the driver
iterates exactly over the page indices `1 .. N-1` in increasing order, `N`
itself is never requested, and `start_scraping_movies` processes exactly
those fetched pages. -/
theorem c5_page_range (n : Nat) (h : 2 ≤ n) :
    (∀ k : Nat, k ∈ pagesToFetch n ↔ 1 ≤ k ∧ k < n) ∧
    (pagesToFetch n).Pairwise (· < ·) ∧
    n ∉ pagesToFetch n ∧
    ∀ (fetch : Nat → Node) (st : ScrapeState),
      startScrapingMovies n fetch st = scrapePages ((pagesToFetch n).map fetch) st := by
  refine ⟨?_, ?_, ?_, fun _ _ => rfl⟩
  · intro k
    rw [pagesToFetch, List.mem_range'_1]
    constructor
    · rintro ⟨h1, h2⟩
      exact ⟨h1, by omega⟩
    · rintro ⟨h1, h2⟩
      exact ⟨h1, by omega⟩
  · exact List.pairwise_lt_range' 1 (n - 1)
  · intro hmem
    rw [pagesToFetch, List.mem_range'_1] at hmem
    omega

/-- Claim C5, witness: `number_of_pages = 3` fetches exactly pages 1 and 2,
never page 3. -/
theorem c5_page_range_witness :
    2 ≤ 3 ∧ pagesToFetch 3 = [1, 2] ∧ 3 ∉ pagesToFetch 3 :=
  ⟨by decide, by decide, (c5_page_range 3 (by decide)).2.2.1⟩

/-- Claim C6 (persistence): after processing a page the sink writes the
entire accumulated dataset (all rows so far, not just the newest page's),
overwriting whatever was in the file before; the header carries the ten
column names in the fixed order, there is no row-index column, and the file
splits into the header line followed by exactly one line per row. -/
theorem c6_persist_full (doc : Node) (st : ScrapeState) :
    (parseListPage doc st).dataset = st.dataset ++ extractPage doc ∧
    (parseListPage doc st).file = some (toCsv (st.dataset ++ extractPage doc)) ∧
    joinWith "," movieInfos =
      "id,title,release_date,duration,genres,directors,actors,press_rating,spec_rating,summary" ∧
    ∀ ds : List Row,
      splitQ '\n' (toCsv ds).data false [] = headerChars :: ds.map rowChars ++ [[]] := by
  refine ⟨rfl, rfl, by decide, fun ds => ?_⟩
  show splitQ '\n' (csvChars ds) false [] = _
  exact csv_lines ds

/-- Claim C7 (id extraction): the id field is the href of the title link
with every non-digit removed — so digit runs other than the movie id are
kept too. -/
theorem c7_id_digits (m d lk : Node) (href : String)
    (h1 : findNode contentTitleP m = some d)
    (h2 : findNode (isTag "a") d = some lk)
    (h3 : lk.attrVal "href" = some href) :
    getMovieId m = some (String.mk (href.data.filter Char.isDigit)) := by
  rw [getMovieId, h1, Option.some_bind, h2, Option.some_bind, h3, Option.map_some']

/-- Claim C7, witness: an href with a single digit run gives the movie id,
and an href with an extra digit run ("/sem-2024/film-123.html") corrupts the
id to "2024123". -/
theorem c7_id_digits_witness :
    getMovieId cardFull = some "123456" ∧
    getMovieId cardWeird = some "2024123" :=
  ⟨(c7_id_digits cardFull titleDivFull titleLinkFull
      "/film/fichefilm_gen_cfilm=123456.html" rfl rfl rfl).trans (by decide),
   (c7_id_digits cardWeird titleDivWeird
      (.elem "a" [] [("href", "/sem-2024/film-123.html")] [.text "Weird"])
      "/sem-2024/film-123.html" rfl rfl rfl).trans (by decide)⟩

/-- Claim C8, counterexample: a present-but-empty field and a missing field
serialize identically, so the round trip cannot restore the dataset: the
dataset with an empty-string actors cell reads back with that cell missing. -/
theorem c8_roundtrip_cx :
    toCsv dsBad = toCsv dsBad2 ∧ dsBad ≠ dsBad2 ∧ readCsv (toCsv dsBad) ≠ dsBad :=
  ⟨by decide, by decide, by decide⟩

/-- Claim C8 as amended (round trip): persisting and re-reading an
accumulated dataset restores it exactly — row count, field values and
column order — provided no present field is the empty string (a
present-but-empty field reads back as the missing marker, which is the one
exception the output format cannot represent). -/
theorem c8_roundtrip_amended (ds : List Row)
    (h : ∀ r ∈ ds, r.length = movieInfos.length ∧ ∀ o ∈ r, o ≠ some "") :
    readCsv (toCsv ds) = ds := by
  rw [readCsv]
  show (((splitQ '\n' (csvChars ds) false []).drop 1).dropLast).map _ = ds
  rw [csv_lines]
  show ((ds.map rowChars ++ [[]]).dropLast).map _ = ds
  rw [List.dropLast_concat, List.map_map]
  have hall : ∀ r ∈ ds,
      ((fun line => (splitQ ',' line false []).map cellOf) ∘ rowChars) r = id r := by
    intro r hr
    have hlen := (h r hr).1
    have hne : r ≠ [] := by
      intro he
      rw [he] at hlen
      exact absurd hlen (by decide)
    exact row_roundtrip r hne (h r hr).2
  rw [List.map_congr_left hall, List.map_id]

/-- Claim C8, witness for the amended statement: the two records extracted
from the two-card page plus a record exercising commas, quotes and missing
markers all survive the round trip. -/
theorem c8_roundtrip_witness :
    (∀ r ∈ dsGood, r.length = movieInfos.length ∧ ∀ o ∈ r, o ≠ some "") ∧
    readCsv (toCsv dsGood) = dsGood :=
  ⟨by decide, c8_roundtrip_amended dsGood (by decide)⟩

/-- Claim C9 (purity): processing a page is a deterministic function of the
markup: its entire effect is to append the records extracted from the
markup (which do not depend on the prior state) and persist the result, and
running it twice on the same markup appends the identical record list both
times. -/
theorem c9_extraction_pure (doc : Node) (st : ScrapeState) :
    parseListPage doc st =
      { dataset := st.dataset ++ extractPage doc,
        file := some (toCsv (st.dataset ++ extractPage doc)) } ∧
    (parseListPage doc (parseListPage doc st)).dataset =
      st.dataset ++ extractPage doc ++ extractPage doc := by
  refine ⟨rfl, ?_⟩
  show (st.dataset ++ extractPage doc) ++ extractPage doc = _
  rfl

/-- Claim C10 (empty vs missing): an actor block that is present but holds a
single link-or-span element yields the empty string, and a present meta-info
block with no genre-tag span yields the empty string — both distinct from
the missing marker produced when the block is absent. -/
theorem c10_empty_vs_missing :
    (∀ m d : Node, findNode actorDivP m = some d →
        (findAll aSpanP d).length = 1 → getMovieActors m = some "") ∧
    (∀ m d : Node, findNode metaInfoP m = some d →
        findAll genreSpanP d = [] → getMovieGenres m = some "") ∧
    (some "" : Option String) ≠ none := by
  refine ⟨?_, ?_, by decide⟩
  · intro m d hd hlen
    rw [getMovieActors, hd, Option.map_some']
    obtain ⟨x, hx⟩ := List.length_eq_one.mp hlen
    rw [hx]
    rfl
  · intro m d hd hempty
    rw [getMovieGenres, hd, Option.map_some', hempty]
    rfl

/-- Claim C10, witness: the card whose actor block holds only the role
label and whose meta-info block has no genre span. -/
theorem c10_empty_vs_missing_witness :
    (findAll aSpanP actorDivOne).length = 1 ∧
    findAll genreSpanP metaInfoDivEmpty = [] ∧
    getMovieActors cardOneActor = some "" ∧
    getMovieGenres cardOneActor = some "" :=
  ⟨by decide, rfl,
    (c10_empty_vs_missing).1 cardOneActor actorDivOne rfl (by decide),
    (c10_empty_vs_missing).2.1 cardOneActor metaInfoDivEmpty rfl rfl⟩
